import Mathlib

/-!
Shallow embedding of `src/reinvent-youtube-in-dynamodb.py`: a single-table
DynamoDB relationship scheme (entities, one-to-many edges, many-to-many
edges) with a primary key `(pk, sk)` and a global secondary index keyed on
`sk` (the `lookup-index`).

The physical table is modelled as a list of records; DynamoDB's key
uniqueness and query semantics are expressed through the operations
themselves (conditional puts test for an existing `(pk, sk)` pair, queries
filter on `pk`, index queries filter on `sk`).
-/

namespace DynamodbModeler

/-- Sentinel sort-key value for entity items (`ROOT = "--root--"` in the source). -/
def ROOT : String := "--root--"

/-- A DynamoDB item of the `entity` table (class `Entity` in the source):
partition key `pk`, sort key `sk`, item type tag `type_`, optional
human-friendly `name`.  (`type` is a Lean keyword, hence `type_`.) -/
structure Record where
  pk : String
  sk : String
  type_ : String
  name : Option String
deriving DecidableEq, Repr

/-- The physical table: all items currently stored. -/
abbrev Table := List Record

/-- Key composition used by every relationship operation in the source:
the Python f-string `f"{id}_{tag}"`. -/
def compose (id tag : String) : String := id ++ "_" ++ tag

/-- Head of a `"_"`-split: models Python `s.split("_")[0]` on the character
list of `s` (the longest prefix not containing `'_'`). -/
def splitHeadL : List Char → List Char
  | [] => []
  | c :: cs => if c = '_' then [] else c :: splitHeadL cs

/-- Models `Entity.pk_id` / `Entity.sk_id`: `self.pk.split("_")[0]`. -/
def splitHead (s : String) : String := ⟨splitHeadL s.data⟩

/-- Property `pk_id` of the source `Entity` class. -/
def Record.pk_id (r : Record) : String := splitHead r.pk

/-- Property `sk_id` of the source `Entity` class. -/
def Record.sk_id (r : Record) : String := splitHead r.sk

/-- An id (or any string) that does not contain the separator character. -/
def noSep (s : String) : Prop := '_' ∉ s.data

instance (s : String) : Decidable (noSep s) := by unfold noSep; infer_instance

/- ------------------------------------------------------------------ -/
/- Relationship metadata (class `TypeEnum`, dataclass `ItemType` and    -/
/- the registered `*_type` instances of the source).                    -/
/- ------------------------------------------------------------------ -/

namespace TypeEnum

def entity : String := "entity"
def o2m : String := "o2m"
def m2m : String := "m2m"

end TypeEnum

/-- Dataclass `ItemType`: a registered kind.  The source also carries the
ORM classes (`klass`, `one_klass`, `many_klass`, `left_klass`,
`right_klass`); all ORM classes share the single physical table `entity`
and none of them influences key composition or query behaviour, so only
the `name` (kind tag) and the structural `type` are kept here. -/
structure ItemType where
  name : String
  type_ : String
deriving DecidableEq, Repr

def user_type : ItemType := ⟨"USER", TypeEnum.entity⟩
def video_type : ItemType := ⟨"VIDEO", TypeEnum.entity⟩
def channel_type : ItemType := ⟨"CHANNEL", TypeEnum.entity⟩
def playlist_type : ItemType := ⟨"PLAYLIST", TypeEnum.entity⟩
def video_ownership_type : ItemType := ⟨"VIDEO-OWNERSHIP", TypeEnum.o2m⟩
def channel_ownership_type : ItemType := ⟨"CHANNEL-OWNERSHIP", TypeEnum.o2m⟩
def playlist_ownership_type : ItemType := ⟨"PLAYLIST-OWNERSHIP", TypeEnum.o2m⟩
def video_channel_association_type : ItemType :=
  ⟨"VIDEO-CHANNEL-ASSOCIATION", TypeEnum.m2m⟩
def video_playlist_association_type : ItemType :=
  ⟨"VIDEO-PLAYLIST-ASSOCIATION", TypeEnum.m2m⟩
def viewer_subscribe_youtuber_type : ItemType :=
  ⟨"VIEWER-SUBSCRIBE-YOUTUBER", TypeEnum.m2m⟩
def viewer_subscribe_channel_type : ItemType :=
  ⟨"VIEWER-SUBSCRIBE-CHANNEL", TypeEnum.m2m⟩

def item_type_list : List ItemType :=
  [user_type, video_type, channel_type, playlist_type,
   video_ownership_type, channel_ownership_type, playlist_ownership_type,
   video_channel_association_type, video_playlist_association_type,
   viewer_subscribe_youtuber_type, viewer_subscribe_channel_type]

/- ------------------------------------------------------------------ -/
/- Errors raised by the operations.                                    -/
/- ------------------------------------------------------------------ -/

/-- Why a conditional `save` (put) against the store failed:
the item-level condition expression failed, or the store itself failed
(throttling / unavailability — any non-conditional cause).  pynamodb
wraps both in the same `exc.PutError`. -/
inductive PutCause where
  | conditionalCheckFailed
  | storeUnavailable
deriving DecidableEq, Repr

/-- Errors surfaced by the business operations: Python `ValueError`
(category validation) or pynamodb `exc.PutError`. -/
inductive DBError where
  | valueError (msg : String)
  | putError (cause : PutCause)
deriving DecidableEq, Repr

/-- A conditional put (`entity.save(condition=...)`).  `storeFault` injects
a store-level failure (anything other than a conditional-check failure);
`condFailed` is the evaluated condition-expression failure. -/
def attemptPut (storeFault : Bool) (condFailed : Bool) : Except DBError Unit :=
  if storeFault then .error (.putError .storeUnavailable)
  else if condFailed then .error (.putError .conditionalCheckFailed)
  else .ok ()

/- ------------------------------------------------------------------ -/
/- Business operations (class `BusinessOperation` of the source).      -/
/- Each write returns the new table; reads return record lists.        -/
/- ------------------------------------------------------------------ -/

/-- Method `new_entity` of `BusinessOperation`.  The put condition
`~klass.pk.exists()` is evaluated by DynamoDB against the item with the
same full key `(id, ROOT)`, so it fails exactly when such an item exists.
The source's `except exc.PutError: return None` catches every put
failure, whatever its cause, and returns `None` with nothing written.
`storeFault` models the health of the store during the put. -/
def new_entity (storeFault : Bool) (type_ : ItemType) (id name : String)
    (save : Bool) (t : Table) : Except DBError (Option Record × Table) :=
  if type_.type_ ≠ TypeEnum.entity then
    .error (.valueError ("Type " ++ type_.name ++ " is not entity"))
  else
    let entity : Record := ⟨id, ROOT, type_.name, some name⟩
    if save = false then .ok (some entity, t)
    else
      match attemptPut storeFault
          (t.any fun r => decide (r.pk = id) && decide (r.sk = ROOT)) with
      | .ok _ => .ok (some entity, t ++ [entity])
      | .error (.putError _) => .ok (none, t)
      | .error e => .error e

/-- Method `new_user` of `BusinessOperation`. -/
def new_user (storeFault : Bool) (id name : String) (save : Bool)
    (t : Table) : Except DBError (Option Record × Table) :=
  new_entity storeFault user_type id name save t

/-- Method `new_video` of `BusinessOperation`. -/
def new_video (storeFault : Bool) (id name : String) (save : Bool)
    (t : Table) : Except DBError (Option Record × Table) :=
  new_entity storeFault video_type id name save t

/-- Method `new_channel` of `BusinessOperation`.  Note: the source passes `video_type`
here, not `channel_type`. -/
def new_channel (storeFault : Bool) (id name : String) (save : Bool)
    (t : Table) : Except DBError (Option Record × Table) :=
  new_entity storeFault video_type id name save t

/-- Method `new_playlist` of `BusinessOperation`. -/
def new_playlist (storeFault : Bool) (id name : String) (save : Bool)
    (t : Table) : Except DBError (Option Record × Table) :=
  new_entity storeFault playlist_type id name save t

/-- Method `set_one_to_many` of `BusinessOperation`: validates the kind is one-to-many,
then — in one `TransactWrite` — queries every item under the partition key
`f"{many_entity_id}_{type.name}"`, deletes them all, and puts the new
relationship item.  The whole commit is modelled as a single state
transition (that is what the transaction guarantees). -/
def set_one_to_many (type_ : ItemType) (many_entity_id one_entity_id : String)
    (t : Table) : Except DBError Table :=
  if type_.type_ ≠ TypeEnum.o2m then
    .error (.valueError ("Type " ++ type_.name ++ " is not one-to-many relationship"))
  else
    let pkc := compose many_entity_id type_.name
    let skc := compose one_entity_id type_.name
    .ok ((t.filter fun r => decide (r.pk ≠ pkc)) ++ [⟨pkc, skc, type_.name, none⟩])

/-- Method `find_many_by_one` of `BusinessOperation`: validates the kind is one-to-many
and queries the `lookup-index` (hash key = `sk`) on
`f"{one_entity_id}_{type.name}"`. -/
def find_many_by_one (type_ : ItemType) (one_entity_id : String)
    (t : Table) : Except DBError (List Record) :=
  if type_.type_ ≠ TypeEnum.o2m then
    .error (.valueError ("Type " ++ type_.name ++ " is not one-to-many relationship"))
  else
    .ok (t.filter fun r => decide (r.sk = compose one_entity_id type_.name))

/-- Method `set_many_to_many` of `BusinessOperation`: performs NO category validation;
issues a put conditioned on `~(klass.pk.exists() & klass.sk.exists())`,
which DynamoDB evaluates against the item with the same `(pk, sk)` key —
it fails exactly when that item already exists, and the resulting
`exc.PutError` is NOT caught by this method. -/
def set_many_to_many (type_ : ItemType) (left_entity_id right_entity_id : String)
    (t : Table) : Except DBError Table :=
  let pkc := compose left_entity_id type_.name
  let skc := compose right_entity_id type_.name
  match attemptPut false
      (t.any fun r => decide (r.pk = pkc) && decide (r.sk = skc)) with
  | .ok _ => .ok (t ++ [⟨pkc, skc, type_.name, none⟩])
  | .error e => .error e

/-- Method `find_many_by_many` of `BusinessOperation`: no validation; queries either by
partition key (`lookup_by_left = true`) or via the `lookup-index` on the
sort key (`lookup_by_left = false`). -/
def find_many_by_many (type_ : ItemType) (entity_id : String)
    (lookup_by_left : Bool) (t : Table) : List Record :=
  if lookup_by_left then
    t.filter fun r => decide (r.pk = compose entity_id type_.name)
  else
    t.filter fun r => decide (r.sk = compose entity_id type_.name)

/-- Folding a sequence of `set_one_to_many` calls over a table; a call that
raises (category validation) leaves the table unchanged because the
`ValueError` is thrown before any write. -/
def applySetOwnerSeq (ops : List (ItemType × String × String)) (t : Table) : Table :=
  match ops with
  | [] => t
  | (ty, m, o) :: rest =>
      applySetOwnerSeq rest
        (match set_one_to_many ty m o t with
         | .ok t' => t'
         | .error _ => t)

/- ------------------------------------------------------------------ -/
/- Derived notions used by the statements.                             -/
/- ------------------------------------------------------------------ -/

/-- Number of records stored under a given partition key. -/
def ownerCount (t : Table) (pkc : String) : Nat :=
  (t.filter fun r => decide (r.pk = pkc)).length

/-- Number of records for a given many-to-many triple `(left, right, kind)`. -/
def tripleCount (type_ : ItemType) (left right : String) (t : Table) : Nat :=
  (t.filter fun r =>
    decide (r.pk = compose left type_.name) &&
    decide (r.sk = compose right type_.name)).length

/-- A query result "includes" an id when some returned record decodes
(`pk_id`) to it — this is how the source's own test helpers
(`assert_pk`) read results. -/
def memPk (l : List Record) (id : String) : Prop :=
  ∃ r ∈ l, r.pk_id = id

instance (l : List Record) (id : String) : Decidable (memPk l id) := by
  unfold memPk; infer_instance

/-- An entity item: underscore-free id as partition key, `ROOT` sort key. -/
def isEntityRec (r : Record) : Prop := noSep r.pk ∧ r.sk = ROOT

/-- A relationship item in canonical encoded form: both keys are composed
with the SAME kind tag from underscore-free ids. -/
def isRelRec (r : Record) : Prop :=
  ∃ a b k, noSep a ∧ noSep b ∧ r.pk = compose a k ∧ r.sk = compose b k

/-- Well-formed table: every record is an entity item or a canonical
relationship item. -/
def wfTable (t : Table) : Prop := ∀ r ∈ t, isEntityRec r ∨ isRelRec r

/-- Table states produced by the engine's operations (started from an empty
table, with kinds drawn from the registered vocabulary and raw ids free of
the separator character, as §4.1 of the design requires). -/
inductive Reachable : Table → Prop where
  | nil : Reachable []
  | newEntity {t t' : Table} {ty : ItemType} {id name : String} {res : Option Record}
      (ht : Reachable t) (hty : ty ∈ item_type_list) (hid : noSep id)
      (h : new_entity false ty id name true t = .ok (res, t')) : Reachable t'
  | setO2M {t t' : Table} {ty : ItemType} {m o : String}
      (ht : Reachable t) (hty : ty ∈ item_type_list) (hm : noSep m) (ho : noSep o)
      (h : set_one_to_many ty m o t = .ok t') : Reachable t'
  | setM2M {t t' : Table} {ty : ItemType} {l r : String}
      (ht : Reachable t) (hty : ty ∈ item_type_list) (hl : noSep l) (hr : noSep r)
      (h : set_many_to_many ty l r t = .ok t') : Reachable t'

/- ================================================================== -/
/- Theorems.                                                           -/
/- ================================================================== -/

/- Basic facts about the separator-based key codec. -/

theorem splitHeadL_of_not_mem {l : List Char} (h : '_' ∉ l) : splitHeadL l = l := by
  induction l with
  | nil => rfl
  | cons c cs ih =>
    simp only [List.mem_cons, not_or] at h
    simp only [splitHeadL, if_neg (Ne.symm h.1), ih h.2]

theorem splitHeadL_append {l₁ l₂ : List Char} (h : '_' ∉ l₁) :
    splitHeadL (l₁ ++ '_' :: l₂) = l₁ := by
  induction l₁ with
  | nil => simp [splitHeadL]
  | cons c cs ih =>
    simp only [List.mem_cons, not_or] at h
    simp only [List.cons_append, splitHeadL, if_neg (Ne.symm h.1)]
    exact congrArg (c :: ·) (ih h.2)

theorem splitHeadL_append_of_mem {l₁ : List Char} (l₂ : List Char) (h : '_' ∈ l₁) :
    splitHeadL (l₁ ++ l₂) = splitHeadL l₁ := by
  induction l₁ with
  | nil => cases h
  | cons c cs ih =>
    by_cases hc : c = '_'
    · subst hc; simp [splitHeadL]
    · simp only [List.mem_cons] at h
      simp only [List.cons_append, splitHeadL, if_neg hc]
      exact congrArg (c :: ·) (ih (h.resolve_left fun he => hc he.symm))

theorem splitHeadL_ne_of_mem {l : List Char} (h : '_' ∈ l) : splitHeadL l ≠ l := by
  induction l with
  | nil => cases h
  | cons c cs ih =>
    by_cases hc : c = '_'
    · subst hc; simp [splitHeadL]
    · simp only [List.mem_cons] at h
      simp only [splitHeadL, if_neg hc]
      intro he
      exact ih (h.resolve_left fun he2 => hc he2.symm) (List.cons_injective he)

theorem sep_mem_append (l₁ l₂ : List Char) : '_' ∈ l₁ ++ '_' :: l₂ := by
  simp

theorem append_sep_inj {l₁ l₂ m₁ m₂ : List Char} (h₁ : '_' ∉ l₁) (h₂ : '_' ∉ l₂)
    (h : l₁ ++ '_' :: m₁ = l₂ ++ '_' :: m₂) : l₁ = l₂ ∧ m₁ = m₂ := by
  have hl : l₁ = l₂ := by
    have := congrArg splitHeadL h
    rwa [splitHeadL_append h₁, splitHeadL_append h₂] at this
  subst hl
  exact ⟨rfl, by simpa using h⟩

theorem compose_data (id tag : String) :
    (compose id tag).data = id.data ++ '_' :: tag.data := by
  show (id ++ "_" ++ tag).data = _
  rw [String.data_append, String.data_append, List.append_assoc]
  exact congrArg (id.data ++ ·) rfl

theorem compose_inj {a b k k' : String} (ha : noSep a) (hb : noSep b)
    (h : compose a k = compose b k') : a = b ∧ k = k' := by
  have hd : a.data ++ '_' :: k.data = b.data ++ '_' :: k'.data := by
    have := congrArg String.data h
    rwa [compose_data, compose_data] at this
  obtain ⟨h1, h2⟩ := append_sep_inj ha hb hd
  exact ⟨String.ext h1, String.ext h2⟩

theorem compose_inj_left {a b k : String} (h : compose a k = compose b k) :
    a = b := by
  have hd : a.data ++ '_' :: k.data = b.data ++ '_' :: k.data := by
    have := congrArg String.data h
    rwa [compose_data, compose_data] at this
  have hlen : a.data.length = b.data.length := by
    have := congrArg List.length hd
    simp only [List.length_append, List.length_cons] at this
    omega
  exact String.ext ((List.append_inj hd hlen).1)

theorem sep_mem_compose (id tag : String) : '_' ∈ (compose id tag).data := by
  rw [compose_data]; exact sep_mem_append _ _

theorem ROOT_ne_compose (a k : String) : ROOT ≠ compose a k := by
  intro h
  have : '_' ∈ ROOT.data := h ▸ sep_mem_compose a k
  revert this
  decide

theorem splitHead_compose {id : String} (tag : String) (h : noSep id) :
    splitHead (compose id tag) = id := by
  unfold splitHead
  rw [compose_data, splitHeadL_append h]

theorem splitHead_of_noSep {s : String} (h : noSep s) : splitHead s = s := by
  unfold splitHead
  exact String.ext (splitHeadL_of_not_mem h)

/- Characterising the operations. -/

theorem keyPresent_iff (t : Table) (p s : String) :
    (t.any fun r => decide (r.pk = p) && decide (r.sk = s)) = true ↔
      ∃ r ∈ t, r.pk = p ∧ r.sk = s := by
  simp [List.any_eq_true]

theorem new_entity_exists {ty : ItemType} {id name : String} {t : Table}
    (hty : ty.type_ = TypeEnum.entity) (hex : ∃ r ∈ t, r.pk = id ∧ r.sk = ROOT) :
    new_entity false ty id name true t = .ok (none, t) := by
  have hc : (t.any fun r => decide (r.pk = id) && decide (r.sk = ROOT)) = true :=
    (keyPresent_iff t id ROOT).mpr hex
  unfold new_entity
  simp [hty, attemptPut, hc]

theorem new_entity_absent {ty : ItemType} {id name : String} {t : Table}
    (hty : ty.type_ = TypeEnum.entity)
    (habs : ¬ ∃ r ∈ t, r.pk = id ∧ r.sk = ROOT) :
    new_entity false ty id name true t =
      .ok (some ⟨id, ROOT, ty.name, some name⟩, t ++ [⟨id, ROOT, ty.name, some name⟩]) := by
  have hc : (t.any fun r => decide (r.pk = id) && decide (r.sk = ROOT)) = false := by
    rw [Bool.eq_false_iff]
    intro h
    exact habs ((keyPresent_iff t id ROOT).mp h)
  unfold new_entity
  simp [hty, attemptPut, hc]

theorem new_entity_fault {ty : ItemType} (id name : String) (t : Table)
    (hty : ty.type_ = TypeEnum.entity) :
    new_entity true ty id name true t = .ok (none, t) := by
  unfold new_entity
  simp [hty, attemptPut]

theorem new_entity_ok {ty : ItemType} {id name : String} {t t' : Table}
    {res : Option Record} (h : new_entity false ty id name true t = .ok (res, t')) :
    t' = t ∨ t' = t ++ [⟨id, ROOT, ty.name, some name⟩] := by
  unfold new_entity at h
  by_cases hty : ty.type_ = TypeEnum.entity
  · rw [if_neg (by simp [hty])] at h
    cases hc : (t.any fun r => decide (r.pk = id) && decide (r.sk = ROOT)) <;>
      simp [attemptPut, hc] at h
    · exact Or.inr h.2.symm
    · exact Or.inl h.2.symm
  · rw [if_pos (by simp [hty])] at h
    cases h

theorem set_one_to_many_eq {ty : ItemType} (m o : String) (t : Table)
    (hty : ty.type_ = TypeEnum.o2m) :
    set_one_to_many ty m o t =
      .ok ((t.filter fun r => decide (r.pk ≠ compose m ty.name)) ++
        [⟨compose m ty.name, compose o ty.name, ty.name, none⟩]) := by
  unfold set_one_to_many
  simp [hty]

theorem set_one_to_many_ok {ty : ItemType} {m o : String} {t t' : Table}
    (h : set_one_to_many ty m o t = .ok t') :
    ty.type_ = TypeEnum.o2m ∧
      t' = (t.filter fun r => decide (r.pk ≠ compose m ty.name)) ++
        [⟨compose m ty.name, compose o ty.name, ty.name, none⟩] := by
  unfold set_one_to_many at h
  by_cases hty : ty.type_ = TypeEnum.o2m
  · rw [if_neg (by simp [hty])] at h
    refine ⟨hty, ?_⟩
    cases h
    rfl
  · rw [if_pos (by simp [hty])] at h
    cases h

theorem find_many_by_one_eq {ty : ItemType} (o : String) (t : Table)
    (hty : ty.type_ = TypeEnum.o2m) :
    find_many_by_one ty o t =
      .ok (t.filter fun r => decide (r.sk = compose o ty.name)) := by
  unfold find_many_by_one
  simp [hty]

theorem set_many_to_many_absent {ty : ItemType} {l r : String} {t : Table}
    (habs : ¬ ∃ x ∈ t, x.pk = compose l ty.name ∧ x.sk = compose r ty.name) :
    set_many_to_many ty l r t =
      .ok (t ++ [⟨compose l ty.name, compose r ty.name, ty.name, none⟩]) := by
  have hc : (t.any fun x =>
      decide (x.pk = compose l ty.name) && decide (x.sk = compose r ty.name)) = false := by
    rw [Bool.eq_false_iff]
    intro h
    exact habs ((keyPresent_iff t _ _).mp h)
  unfold set_many_to_many
  simp [attemptPut, hc]

theorem set_many_to_many_present {ty : ItemType} {l r : String} {t : Table}
    (hex : ∃ x ∈ t, x.pk = compose l ty.name ∧ x.sk = compose r ty.name) :
    set_many_to_many ty l r t = .error (.putError .conditionalCheckFailed) := by
  have hc : (t.any fun x =>
      decide (x.pk = compose l ty.name) && decide (x.sk = compose r ty.name)) = true :=
    (keyPresent_iff t _ _).mpr hex
  unfold set_many_to_many
  simp [attemptPut, hc]

theorem set_many_to_many_ok {ty : ItemType} {l r : String} {t t' : Table}
    (h : set_many_to_many ty l r t = .ok t') :
    t' = t ++ [⟨compose l ty.name, compose r ty.name, ty.name, none⟩] := by
  unfold set_many_to_many at h
  cases hc : (t.any fun x =>
      decide (x.pk = compose l ty.name) && decide (x.sk = compose r ty.name)) <;>
    simp [attemptPut, hc] at h
  exact h.symm

/- Well-formedness of reachable tables. -/

theorem wfTable_append {t : Table} (r : Record) (h : wfTable t)
    (hr : isEntityRec r ∨ isRelRec r) : wfTable (t ++ [r]) := by
  intro x hx
  rcases List.mem_append.mp hx with hx | hx
  · exact h x hx
  · rcases List.mem_singleton.mp hx with rfl
    exact hr

theorem wfTable_filter {t : Table} (p : Record → Bool) (h : wfTable t) :
    wfTable (t.filter p) := by
  intro x hx
  exact h x (List.mem_of_mem_filter hx)

theorem reachable_wf {t : Table} (h : Reachable t) : wfTable t := by
  induction h with
  | nil => intro r hr; cases hr
  | @newEntity t t' ty id name res ht hty hid heq ih =>
    rcases new_entity_ok heq with h1 | h1
    · exact h1 ▸ ih
    · exact h1 ▸ wfTable_append _ ih (Or.inl ⟨hid, rfl⟩)
  | @setO2M t t' ty m o ht hty hm ho heq ih =>
    rcases set_one_to_many_ok heq with ⟨_, h1⟩
    exact h1 ▸ wfTable_append _ (wfTable_filter _ ih)
      (Or.inr ⟨m, o, ty.name, hm, ho, rfl, rfl⟩)
  | @setM2M t t' ty l r ht hty hl hr heq ih =>
    have h1 := set_many_to_many_ok heq
    exact h1 ▸ wfTable_append _ ih
      (Or.inr ⟨l, r, ty.name, hl, hr, rfl, rfl⟩)

/- ================================================================== -/
/- Claims.                                                             -/
/- ================================================================== -/

/-- Claim C2: for two distinct registered kind tags `A` and `B` and ids free of
the separator, the `(primary_key, sort_key)` pair composed for
`(A, id1, id2)` never equals the pair composed for `(B, id1, id2)`;
more generally the codec is injective on separator-free ids, and an
entity key `(id, ROOT)` never collides with a relationship key. -/
theorem key_codec_no_collision (A B id1 id2 : String)
    (hA : A ∈ item_type_list.map ItemType.name)
    (hB : B ∈ item_type_list.map ItemType.name)
    (hAB : A ≠ B) (h1 : noSep id1) (h2 : noSep id2) :
    (compose id1 A, compose id2 A) ≠ (compose id1 B, compose id2 B) ∧
    (∀ a b a' b' k k', noSep a → noSep a' →
        (compose a k, compose b k) = (compose a' k', compose b' k') →
        a = a' ∧ b = b' ∧ k = k') ∧
    (∀ id a b k, (id, ROOT) ≠ (compose a k, compose b k)) := by
  refine ⟨?_, ?_, ?_⟩
  · intro h
    have h' : compose id1 A = compose id1 B := congrArg Prod.fst h
    exact hAB (compose_inj h1 h1 h').2
  · intro a b a' b' k k' ha ha' h
    have hfst : compose a k = compose a' k' := congrArg Prod.fst h
    have hsnd : compose b k = compose b' k' := congrArg Prod.snd h
    obtain ⟨hae, hke⟩ := compose_inj ha ha' hfst
    subst hke
    exact ⟨hae, compose_inj_left hsnd, rfl⟩
  · intro id a b k h
    exact ROOT_ne_compose b k (congrArg Prod.snd h)

/-- Witness for `key_codec_no_collision` at the two ownership kinds. -/
theorem key_codec_no_collision_witness :
    (compose "v-1" "VIDEO-OWNERSHIP", compose "u-1" "VIDEO-OWNERSHIP") ≠
      (compose "v-1" "CHANNEL-OWNERSHIP", compose "u-1" "CHANNEL-OWNERSHIP") :=
  (key_codec_no_collision "VIDEO-OWNERSHIP" "CHANNEL-OWNERSHIP" "v-1" "u-1"
    (by decide) (by decide) (by decide) (by decide) (by decide)).1

/-- Claim C10: the functions `pk_id` and `sk_id` invert key composition on separator-free ids:
on a composed key they recover the id, on a raw entity id they are the
identity; when the id itself contains `"_"` only the prefix before the
first separator is returned and the round trip fails. -/
theorem pk_id_sk_id_roundtrip (id tag : String) :
    (noSep id → ∀ r : Record, r.pk = compose id tag → r.pk_id = id) ∧
    (noSep id → ∀ r : Record, r.sk = compose id tag → r.sk_id = id) ∧
    (noSep id → ∀ r : Record, r.pk = id → r.pk_id = id) ∧
    (¬ noSep id →
      splitHead (compose id tag) = splitHead id ∧
      splitHead (compose id tag) ≠ id) := by
  refine ⟨?_, ?_, ?_, ?_⟩
  · intro h r hr
    unfold Record.pk_id
    rw [hr, splitHead_compose tag h]
  · intro h r hr
    unfold Record.sk_id
    rw [hr, splitHead_compose tag h]
  · intro h r hr
    unfold Record.pk_id
    rw [hr, splitHead_of_noSep h]
  · intro h
    have hmem : '_' ∈ id.data := by simpa [noSep, not_not] using h
    have h1 : splitHead (compose id tag) = splitHead id := by
      unfold splitHead
      rw [compose_data]
      exact congrArg String.mk (splitHeadL_append_of_mem ('_' :: tag.data) hmem)
    refine ⟨h1, ?_⟩
    rw [h1]
    intro he
    have hd : splitHeadL id.data = id.data := congrArg String.data he
    exact splitHeadL_ne_of_mem hmem hd

/-- Witness for `pk_id_sk_id_roundtrip` on a concrete ownership record. -/
theorem pk_id_sk_id_roundtrip_witness :
    Record.pk_id ⟨compose "v-1" "VIDEO-OWNERSHIP",
      compose "u-1" "VIDEO-OWNERSHIP", "VIDEO-OWNERSHIP", none⟩ = "v-1" :=
  (pk_id_sk_id_roundtrip "v-1" "VIDEO-OWNERSHIP").1 (by decide) _ rfl

/-- Claim C7: `new_entity` is a conditional create keyed on `(id, ROOT)`:
if a record with that key exists it returns the distinguishable
"not created" result `none` (no exception) and leaves the table — hence
the pre-existing record — unchanged; otherwise it creates the entity. -/
theorem new_entity_conditional_create (ty : ItemType) (id name : String)
    (t : Table) (hty : ty.type_ = TypeEnum.entity) :
    ((∃ r ∈ t, r.pk = id ∧ r.sk = ROOT) →
      new_entity false ty id name true t = .ok (none, t)) ∧
    (¬ (∃ r ∈ t, r.pk = id ∧ r.sk = ROOT) →
      new_entity false ty id name true t =
        .ok (some ⟨id, ROOT, ty.name, some name⟩,
             t ++ [⟨id, ROOT, ty.name, some name⟩])) :=
  ⟨fun hex => new_entity_exists hty hex, fun habs => new_entity_absent hty habs⟩

/-- Witness for `new_entity_conditional_create`: a duplicate create
returns `none` and keeps the table unchanged. -/
theorem new_entity_conditional_create_witness :
    new_entity false user_type "u-1" "Alice" true
        [⟨"u-1", ROOT, "USER", some "Alice"⟩] =
      .ok (none, [⟨"u-1", ROOT, "USER", some "Alice"⟩]) :=
  (new_entity_conditional_create user_type "u-1" "Alice"
    [⟨"u-1", ROOT, "USER", some "Alice"⟩] rfl).1 (by simp)

/-- Claim C9 counterexample: a put failure whose cause is NOT the conditional
check (store unavailable) is mapped by `new_entity` to the very same
"not created" result `none` — the blanket `except exc.PutError` swallows
it instead of surfacing it. -/
theorem new_entity_store_fault_swallowed_cex :
    new_entity true user_type "u-1" "Alice" true [] = .ok (none, []) :=
  new_entity_fault "u-1" "Alice" [] rfl

/-- Claim C9 (amended): every put failure raised inside `new_entity` — the
conditional-check failure AND any store-level failure — is caught by the
blanket `except exc.PutError` handler and mapped to the `none` result
with the table unchanged; no retry is attempted (the put is issued once). -/
theorem new_entity_swallows_store_fault (ty : ItemType) (id name : String)
    (t : Table) (hty : ty.type_ = TypeEnum.entity) :
    new_entity true ty id name true t = .ok (none, t) :=
  new_entity_fault id name t hty

/-- Witness for `new_entity_swallows_store_fault`. -/
theorem new_entity_swallows_store_fault_witness :
    new_entity true user_type "u-9" "Nina" true [] = .ok (none, []) :=
  new_entity_swallows_store_fault user_type "u-9" "Nina" [] rfl

/-- Claim C8 (code bug): `new_channel` passes `video_type` to `new_entity`, so
the entity it creates carries kind tag `"VIDEO"`, not the `"CHANNEL"` tag
of the registered channel kind — unlike `new_user` and `new_video`,
which resolve to their own kinds. -/
theorem new_channel_uses_video_type :
    new_channel false "c-1-1" "Alice Channel 1" true [] =
      .ok (some ⟨"c-1-1", ROOT, "VIDEO", some "Alice Channel 1"⟩,
           [⟨"c-1-1", ROOT, "VIDEO", some "Alice Channel 1"⟩]) ∧
    video_type.name = "VIDEO" ∧ channel_type.name = "CHANNEL" ∧
    ("VIDEO" : String) ≠ "CHANNEL" ∧
    new_user false "u-1" "Alice" true [] =
      .ok (some ⟨"u-1", ROOT, "USER", some "Alice"⟩,
           [⟨"u-1", ROOT, "USER", some "Alice"⟩]) ∧
    new_video false "v-1" "Video 1" true [] =
      .ok (some ⟨"v-1", ROOT, "VIDEO", some "Video 1"⟩,
           [⟨"v-1", ROOT, "VIDEO", some "Video 1"⟩]) := by
  refine ⟨?_, rfl, rfl, by decide, ?_, ?_⟩
  · exact new_entity_absent rfl (by simp)
  · exact new_entity_absent rfl (by simp)
  · exact new_entity_absent rfl (by simp)

/-- Claim C6 counterexample: invoking `set_many_to_many` with the entity kind
`USER` (category `entity`, not many-to-many) raises nothing and writes a
relationship record — there is no category validation in the method. -/
theorem set_many_to_many_skips_validation_cex :
    user_type.type_ ≠ TypeEnum.m2m ∧
    set_many_to_many user_type "u-1" "u-2" [] =
      .ok [⟨compose "u-1" "USER", compose "u-2" "USER", "USER", none⟩] :=
  ⟨by decide, @set_many_to_many_absent user_type "u-1" "u-2" [] (by simp)⟩

/-- Claim C6 (amended): `set_many_to_many` performs no category validation at
all: invoked with a kind of any non-many-to-many category it still issues
the conditional put and, when the composed key is absent, writes the
relationship record and reports success — it never raises a
wrong-category error, unlike `set_one_to_many`. -/
theorem set_many_to_many_no_validation (ty : ItemType) (l r : String)
    (t : Table) (hty : ty.type_ ≠ TypeEnum.m2m)
    (habs : ¬ ∃ x ∈ t, x.pk = compose l ty.name ∧ x.sk = compose r ty.name) :
    set_many_to_many ty l r t =
      .ok (t ++ [⟨compose l ty.name, compose r ty.name, ty.name, none⟩]) :=
  set_many_to_many_absent habs

/-- Witness for `set_many_to_many_no_validation` at the entity kind `USER`. -/
theorem set_many_to_many_no_validation_witness :
    set_many_to_many user_type "u-1" "u-3" [] =
      .ok [⟨compose "u-1" "USER", compose "u-3" "USER", "USER", none⟩] :=
  set_many_to_many_no_validation user_type "u-1" "u-3" [] (by decide) (by simp)

/-- Claim C3 counterexample: calling `set_many_to_many` twice with identical
arguments does NOT report success twice — the second call's conditional
put fails and the resulting `exc.PutError` escapes to the caller. -/
theorem set_many_to_many_duplicate_raises_cex :
    (set_many_to_many video_channel_association_type "v-2-2" "c-2-1" []).bind
        (set_many_to_many video_channel_association_type "v-2-2" "c-2-1") =
      .error (.putError .conditionalCheckFailed) := by
  rw [@set_many_to_many_absent video_channel_association_type "v-2-2" "c-2-1" []
    (by simp)]
  exact @set_many_to_many_present video_channel_association_type "v-2-2" "c-2-1"
    ([] ++ [⟨compose "v-2-2" video_channel_association_type.name,
      compose "c-2-1" video_channel_association_type.name,
      video_channel_association_type.name, none⟩])
    ⟨⟨compose "v-2-2" video_channel_association_type.name,
      compose "c-2-1" video_channel_association_type.name,
      video_channel_association_type.name, none⟩, by simp, rfl, rfl⟩

/-- Claim C3 (amended): from a table without the edge, the first
`set_many_to_many` call succeeds and leaves exactly one record for the
`(left, right, kind)` triple; the identical second call leaves the table
with that single record but surfaces the conditional-put failure as an
error instead of reporting success. -/
theorem set_many_to_many_idempotent_state (ty : ItemType) (l r : String)
    (t : Table)
    (habs : ¬ ∃ x ∈ t, x.pk = compose l ty.name ∧ x.sk = compose r ty.name) :
    ∃ t₁, set_many_to_many ty l r t = .ok t₁ ∧
      tripleCount ty l r t₁ = 1 ∧
      set_many_to_many ty l r t₁ = .error (.putError .conditionalCheckFailed) := by
  refine ⟨_, set_many_to_many_absent habs, ?_, ?_⟩
  · unfold tripleCount
    rw [List.filter_append]
    have h0 : (t.filter fun x =>
        decide (x.pk = compose l ty.name) && decide (x.sk = compose r ty.name)) = [] := by
      rw [List.filter_eq_nil_iff]
      intro x hx
      simp only [Bool.and_eq_true, decide_eq_true_eq, not_and]
      intro hp hs
      exact habs ⟨x, hx, hp, hs⟩
    rw [h0]
    simp [List.filter_singleton]
  · exact set_many_to_many_present
      ⟨⟨compose l ty.name, compose r ty.name, ty.name, none⟩, by simp, rfl, rfl⟩

/-- Witness for `set_many_to_many_idempotent_state` on the video-channel
association. -/
theorem set_many_to_many_idempotent_state_witness :
    ∃ t₁, set_many_to_many video_channel_association_type "v-2-2" "c-2-1" [] =
        .ok t₁ ∧
      tripleCount video_channel_association_type "v-2-2" "c-2-1" t₁ = 1 ∧
      set_many_to_many video_channel_association_type "v-2-2" "c-2-1" t₁ =
        .error (.putError .conditionalCheckFailed) :=
  set_many_to_many_idempotent_state video_channel_association_type
    "v-2-2" "c-2-1" [] (by simp)

/- Supporting lemmas for the one-to-many uniqueness invariant. -/

theorem set_one_to_many_pk_records {ty : ItemType} {m o : String} {t t' : Table}
    (h : set_one_to_many ty m o t = .ok t') :
    t'.filter (fun r => decide (r.pk = compose m ty.name)) =
      [⟨compose m ty.name, compose o ty.name, ty.name, none⟩] := by
  obtain ⟨hty, rfl⟩ := set_one_to_many_ok h
  rw [List.filter_append]
  have h0 : ((t.filter fun r => decide (r.pk ≠ compose m ty.name)).filter
      fun r => decide (r.pk = compose m ty.name)) = [] := by
    rw [List.filter_eq_nil_iff]
    intro x hx
    have hne := (List.mem_filter.mp hx).2
    simp only [decide_eq_true_eq] at hne ⊢
    exact hne
  rw [h0, List.nil_append, List.filter_singleton]
  simp

theorem ownerCount_set_one_to_many_other {ty : ItemType} {m o : String}
    {t t' : Table} (h : set_one_to_many ty m o t = .ok t') (c : String)
    (hc : c ≠ compose m ty.name) : ownerCount t' c ≤ ownerCount t c := by
  obtain ⟨hty, rfl⟩ := set_one_to_many_ok h
  unfold ownerCount
  rw [List.filter_append, List.filter_singleton]
  have hdec : decide ((⟨compose m ty.name, compose o ty.name, ty.name, none⟩ :
      Record).pk = c) = false := by
    simp only [decide_eq_false_iff_not]
    exact fun he => hc he.symm
  rw [hdec, cond_false, List.append_nil]
  exact List.Sublist.length_le ((List.filter_sublist t).filter _)

theorem ownerCount_applySetOwnerSeq {c : String}
    (ops : List (ItemType × String × String)) (t : Table)
    (h : ownerCount t c ≤ 1) : ownerCount (applySetOwnerSeq ops t) c ≤ 1 := by
  induction ops generalizing t with
  | nil => exact h
  | cons hd rest ih =>
    rcases hd with ⟨ty, m, o⟩
    show ownerCount (applySetOwnerSeq rest _) c ≤ 1
    apply ih
    cases heq : set_one_to_many ty m o t with
    | error e => simpa using h
    | ok t' =>
      show ownerCount t' c ≤ 1
      by_cases hc : c = compose m ty.name
      · subst hc
        rw [ownerCount, set_one_to_many_pk_records heq]
        simp
      · exact le_trans (ownerCount_set_one_to_many_other heq c hc) h

/-- Claim C1: for a one-to-many kind, a successful `set_one_to_many` leaves
exactly one record (the freshly put one) under the composed partition key
— it deletes every record found there and puts one, atomically — and
hence, starting from a table holding at most one record under
`"{many_id}_{kind_tag}"`, any finite sequence of `set_one_to_many` calls
preserves "at most one record under that partition key". -/
theorem set_one_to_many_unique_owner (ty : ItemType) (m : String)
    (hty : ty.type_ = TypeEnum.o2m) (ops : List (ItemType × String × String))
    (t₀ : Table) (h : ownerCount t₀ (compose m ty.name) ≤ 1) :
    ownerCount (applySetOwnerSeq ops t₀) (compose m ty.name) ≤ 1 ∧
    ∀ (o : String) (t t' : Table), set_one_to_many ty m o t = .ok t' →
      t'.filter (fun r => decide (r.pk = compose m ty.name)) =
        [⟨compose m ty.name, compose o ty.name, ty.name, none⟩] :=
  ⟨ownerCount_applySetOwnerSeq ops t₀ h,
   fun _ _ _ heq => set_one_to_many_pk_records heq⟩

/-- Witness for `set_one_to_many_unique_owner`: two reassignments of the
same video starting from the empty table. -/
theorem set_one_to_many_unique_owner_witness :
    ownerCount
      (applySetOwnerSeq
        [(video_ownership_type, "v-1", "u-1"), (video_ownership_type, "v-1", "u-2")]
        [])
      (compose "v-1" "VIDEO-OWNERSHIP") ≤ 1 :=
  (set_one_to_many_unique_owner video_ownership_type "v-1" rfl
    [(video_ownership_type, "v-1", "u-1"), (video_ownership_type, "v-1", "u-2")]
    [] (by decide)).1

/-- Claim C4: replace semantics of ownership.  After setting the owner of `m`
to `X` and then to `Y` (`X ≠ Y`), the owner-side query for `X` no longer
includes `m` while the query for `Y` does — exactly one of the two result
sets contains `m`.  The table may hold arbitrary other records, provided
any record already asserting "m is owned by X" uses the canonical
encoding (which every record written by the engine does). -/
theorem set_owner_replace_semantics (ty : ItemType) (m X Y : String)
    (t₀ : Table) (hty : ty.type_ = TypeEnum.o2m) (hXY : X ≠ Y)
    (hm : noSep m) (hX : noSep X) (hY : noSep Y)
    (hclean : ∀ r ∈ t₀, r.sk = compose X ty.name → r.pk_id = m →
      r.pk = compose m ty.name) :
    ∃ t₁ t₂ lX lY,
      set_one_to_many ty m X t₀ = .ok t₁ ∧
      set_one_to_many ty m Y t₁ = .ok t₂ ∧
      find_many_by_one ty X t₂ = .ok lX ∧
      find_many_by_one ty Y t₂ = .ok lY ∧
      ¬ memPk lX m ∧ memPk lY m := by
  have hcXY : compose X ty.name ≠ compose Y ty.name :=
    fun he => hXY (compose_inj hX hY he).1
  refine ⟨_, _, _, _, set_one_to_many_eq m X t₀ hty, set_one_to_many_eq m Y _ hty,
    find_many_by_one_eq X _ hty, find_many_by_one_eq Y _ hty, ?_, ?_⟩
  · rintro ⟨r, hr, hrid⟩
    obtain ⟨hmem, hskX⟩ := List.mem_filter.mp hr
    have hskX' : r.sk = compose X ty.name := of_decide_eq_true hskX
    rcases List.mem_append.mp hmem with hmem | hmem
    · obtain ⟨hmem2, hpk⟩ := List.mem_filter.mp hmem
      have hpk' : r.pk ≠ compose m ty.name := of_decide_eq_true hpk
      rcases List.mem_append.mp hmem2 with h3 | h3
      · have h4 := List.mem_filter.mp h3
        exact hpk' (hclean r h4.1 hskX' hrid)
      · rcases List.mem_singleton.mp h3 with rfl
        exact hpk' rfl
    · rcases List.mem_singleton.mp hmem with rfl
      exact hcXY hskX'.symm
  · refine ⟨⟨compose m ty.name, compose Y ty.name, ty.name, none⟩,
      List.mem_filter.mpr
        ⟨List.mem_append_right _ (List.mem_singleton.mpr rfl), by simp⟩, ?_⟩
    exact splitHead_compose ty.name hm

/-- Witness for `set_owner_replace_semantics`: reassign video `v-1` from
user `u-1` to user `u-2` starting from the empty table. -/
theorem set_owner_replace_semantics_witness :
    ∃ t₁ t₂ lX lY,
      set_one_to_many video_ownership_type "v-1" "u-1" [] = .ok t₁ ∧
      set_one_to_many video_ownership_type "v-1" "u-2" t₁ = .ok t₂ ∧
      find_many_by_one video_ownership_type "u-1" t₂ = .ok lX ∧
      find_many_by_one video_ownership_type "u-2" t₂ = .ok lY ∧
      ¬ memPk lX "v-1" ∧ memPk lY "v-1" :=
  set_owner_replace_semantics video_ownership_type "v-1" "u-1" "u-2" []
    rfl (by decide) (by decide) (by decide) (by decide) (by simp)

/- Supporting lemmas for the bidirectional query equivalence. -/

theorem find_many_by_many_left (ty : ItemType) (eid : String) (t : Table) :
    find_many_by_many ty eid true t =
      t.filter fun x => decide (x.pk = compose eid ty.name) := rfl

theorem find_many_by_many_right (ty : ItemType) (eid : String) (t : Table) :
    find_many_by_many ty eid false t =
      t.filter fun x => decide (x.sk = compose eid ty.name) := rfl

/-- In a well-formed table, a record whose pk is a composed key is a
canonical relationship record of that very kind, and its `sk_id`
identifies its full sort key. -/
theorem wf_pk_composed {t : Table} {x : Record} {left : String} {k : String}
    (hwf : wfTable t) (hxt : x ∈ t) (hl : noSep left)
    (hpk : x.pk = compose left k) :
    ∃ b, noSep b ∧ x.sk = compose b k := by
  rcases hwf x hxt with hent | ⟨a, b, k', ha, hb, hpk', hsk'⟩
  · exact absurd (sep_mem_compose left k) (hpk ▸ hent.1)
  · obtain ⟨haL, hkT⟩ := compose_inj ha hl (hpk'.symm.trans hpk)
    subst hkT
    exact ⟨b, hb, hsk'⟩

/-- Symmetric version for a composed sort key. -/
theorem wf_sk_composed {t : Table} {x : Record} {right : String} {k : String}
    (hwf : wfTable t) (hxt : x ∈ t) (hr : noSep right)
    (hsk : x.sk = compose right k) :
    ∃ a, noSep a ∧ x.pk = compose a k := by
  rcases hwf x hxt with hent | ⟨a, b, k', ha, hb, hpk', hsk'⟩
  · exact absurd (hent.2.symm.trans hsk) (ROOT_ne_compose right k)
  · obtain ⟨hbR, hkT⟩ := compose_inj hb hr (hsk'.symm.trans hsk)
    subst hkT
    exact ⟨a, ha, hpk'⟩

/-- Claim C5: bidirectional query equivalence.  On any table produced by the
engine's operations, `right` appears (decoded via `sk_id`) in the
primary-key query for `left` exactly when `left` appears (decoded via
`pk_id`) in the secondary-index query for `right`. -/
theorem find_many_by_many_bidirectional (ty : ItemType) (left right : String)
    (t : Table) (ht : Reachable t) (hty : ty.type_ = TypeEnum.m2m)
    (hl : noSep left) (hr : noSep right) :
    (∃ x ∈ find_many_by_many ty left true t, x.sk_id = right) ↔
    (∃ x ∈ find_many_by_many ty right false t, x.pk_id = left) := by
  have hwf := reachable_wf ht
  rw [find_many_by_many_left, find_many_by_many_right]
  constructor
  · rintro ⟨x, hx, hskid⟩
    obtain ⟨hxt, hpk⟩ := List.mem_filter.mp hx
    have hpk' : x.pk = compose left ty.name := of_decide_eq_true hpk
    obtain ⟨b, hb, hsk'⟩ := wf_pk_composed hwf hxt hl hpk'
    have hbr : b = right := by
      have : x.sk_id = b := by
        unfold Record.sk_id
        rw [hsk', splitHead_compose _ hb]
      exact this.symm.trans hskid
    subst hbr
    refine ⟨x, List.mem_filter.mpr ⟨hxt, by simp [hsk']⟩, ?_⟩
    unfold Record.pk_id
    rw [hpk', splitHead_compose _ hl]
  · rintro ⟨x, hx, hpkid⟩
    obtain ⟨hxt, hsk⟩ := List.mem_filter.mp hx
    have hsk' : x.sk = compose right ty.name := of_decide_eq_true hsk
    obtain ⟨a, ha, hpk'⟩ := wf_sk_composed hwf hxt hr hsk'
    have hal : a = left := by
      have : x.pk_id = a := by
        unfold Record.pk_id
        rw [hpk', splitHead_compose _ ha]
      exact this.symm.trans hpkid
    subst hal
    refine ⟨x, List.mem_filter.mpr ⟨hxt, by simp [hpk']⟩, ?_⟩
    unfold Record.sk_id
    rw [hsk', splitHead_compose _ hr]

/-- Witness for `find_many_by_many_bidirectional` on a table reached by
one `set_many_to_many` call linking video `v-2-2` to channel `c-2-1`. -/
theorem find_many_by_many_bidirectional_witness :
    (∃ x ∈ find_many_by_many video_channel_association_type "v-2-2" true
        ([] ++ [⟨compose "v-2-2" "VIDEO-CHANNEL-ASSOCIATION",
          compose "c-2-1" "VIDEO-CHANNEL-ASSOCIATION",
          "VIDEO-CHANNEL-ASSOCIATION", none⟩]),
      x.sk_id = "c-2-1") ↔
    (∃ x ∈ find_many_by_many video_channel_association_type "c-2-1" false
        ([] ++ [⟨compose "v-2-2" "VIDEO-CHANNEL-ASSOCIATION",
          compose "c-2-1" "VIDEO-CHANNEL-ASSOCIATION",
          "VIDEO-CHANNEL-ASSOCIATION", none⟩]),
      x.pk_id = "v-2-2") :=
  find_many_by_many_bidirectional video_channel_association_type "v-2-2" "c-2-1" _
    (Reachable.setM2M Reachable.nil (by decide) (by decide) (by decide)
      (@set_many_to_many_absent video_channel_association_type "v-2-2" "c-2-1" []
        (by simp)))
    rfl (by decide) (by decide)

end DynamodbModeler
